import Mathlib

set_option maxRecDepth 4000

/-!
Shallow embedding of the Fire2012WithPalette Arduino sketch
(src/Fire2012WithPalette/Fire2012WithPalette.ino).

Machine bytes are embedded as Nat with explicit saturation (the FastLED
helpers qsub8 / qadd8 saturate at 0 / 255), int counters as Int, and the
unsigned long tick deadline as Nat taken modulo 2 ^ 32.  Heat arrays are
embedded as total functions Nat -> Nat; every operation of the sketch only
touches indices below HEAT_CELLS, and all theorems are stated on that range.
-/

-- Compile-time constants (the #define lines of the sketch).
def NUM_LEDS : Nat := 12
def HEAT_CELL_MULTIPLIER : Nat := 2
def HEAT_CELLS : Nat := NUM_LEDS * HEAT_CELL_MULTIPLIER
def COOLING : Nat := 55
def SPARKING : Nat := 80
def NUM_PALLETS : Nat := 4
def FRAMES_PER_SECOND : Nat := 30
def BRIGHTNESS : Nat := 200
def MAX_BRIGHTNESS : Nat := 255

/-- Modelled from the spec: FastLED qsub8, the saturating byte subtraction the
sketch uses for cooling ("saturating subtraction (result never below 0)").
FastLED is an external library, not part of this repository.  Nat truncated
subtraction is exactly saturation at 0. -/
def qsub8 (x y : Nat) : Nat := x - y

/-- Modelled from the spec: FastLED qadd8, the saturating byte addition the
sketch uses for sparking ("saturating addition (capped at 255)"). -/
def qadd8 (x y : Nat) : Nat := min (x + y) 255

/-- Modelled from the spec: FastLED scale8 with fixed-point rounding, which
maps an input in [0,255] with scale 240 into [0,240] ("scaled from [0,255]
down to [0,240]"). -/
def scale8 (i sc : Nat) : Nat := i * (sc + 1) / 256

/-- One in-place array store: heat[idx] = v, everything else unchanged. -/
def setCell (h : Nat → Nat) (idx v : Nat) : Nat → Nat :=
  fun i => if i = idx then v else h i

/-- Step 1 of FireSim::update: heat[i] = qsub8(heat[i], draw i) for every
i < HEAT_CELLS, where draw i is the random8 value drawn for cell i. -/
def coolPass (h c : Nat → Nat) : Nat → Nat :=
  fun i => if i < HEAT_CELLS then qsub8 (h i) (c i) else h i

/-- The right-hand side of the diffusion assignment:
(heat[k-1] + heat[k-2] + heat[k-2]) / 3. -/
def diffuseCell (h : Nat → Nat) (k : Nat) : Nat :=
  (h (k - 1) + h (k - 2) + h (k - 2)) / 3

/-- Step 2 of FireSim::update, the in-place top-down loop
for (k = m; k >= 2; k--) heat[k] = (heat[k-1] + heat[k-2] + heat[k-2]) / 3
run for indices m, m-1, ..., 2. -/
def diffuseDown (h : Nat → Nat) : Nat → (Nat → Nat)
  | 0 => h
  | 1 => h
  | k + 2 => diffuseDown (setCell h (k + 2) (diffuseCell h (k + 2))) (k + 1)

/-- The diffusion pass of the sketch: the loop starts at HEAT_CELLS - 1. -/
def diffusePass (h : Nat → Nat) : Nat → Nat := diffuseDown h (HEAT_CELLS - 1)

/-- Spec-side definition, for the refinement claim C1 only: a diffusion pass
that writes into a fresh secondary buffer from the frozen pre-pass array,
with cell k = (heat[k-1] + 2*heat[k-2]) / 3 for 2 <= k <= cellCount - 1 and
cells outside that range copied unchanged. -/
def diffuseFresh (h : Nat → Nat) (n : Nat) : Nat → Nat :=
  fun k => if 2 ≤ k ∧ k ≤ n - 1 then (h (k - 1) + 2 * h (k - 2)) / 3 else h k

/-- Characterization of the in-place top-down pass: every updated index reads
only values frozen at the start of the pass. -/
theorem diffuseDown_eq (m : Nat) : ∀ (h : Nat → Nat) (k : Nat),
    diffuseDown h m k =
      if 2 ≤ k ∧ k ≤ m then (h (k - 1) + h (k - 2) + h (k - 2)) / 3 else h k := by
  induction m with
  | zero =>
    intro h k
    rw [if_neg (by omega)]
    rfl
  | succ j ih =>
    intro h k
    cases j with
    | zero =>
      rw [if_neg (by omega)]
      rfl
    | succ i =>
      have step : diffuseDown h (i + 2) =
          diffuseDown (setCell h (i + 2) (diffuseCell h (i + 2))) (i + 1) := rfl
      rw [step, ih]
      by_cases hk : 2 ≤ k ∧ k ≤ i + 1
      · have e1 : setCell h (i + 2) (diffuseCell h (i + 2)) (k - 1) = h (k - 1) := by
          unfold setCell
          rw [if_neg (by omega)]
        have e2 : setCell h (i + 2) (diffuseCell h (i + 2)) (k - 2) = h (k - 2) := by
          unfold setCell
          rw [if_neg (by omega)]
        rw [if_pos hk, if_pos (by omega), e1, e2]
      · rw [if_neg hk]
        by_cases hk2 : k = i + 2
        · subst hk2
          unfold setCell
          rw [if_pos rfl, if_pos (by omega)]
          rfl
        · unfold setCell
          rw [if_neg hk2, if_neg (by omega)]

/-- C1: after the diffusion pass of FireSim::update, every cell k with
2 <= k <= cellCount - 1 equals (heat[k-1] + 2*heat[k-2]) / 3 computed from the
values frozen at the start of the pass, cells 0 and 1 are unchanged, and the
in-place top-down pass coincides with a pass writing into a fresh secondary
buffer from the frozen pre-pass array. -/
theorem c1_diffusion_frozen_equiv (h : Nat → Nat) (k : Nat) :
    diffusePass h k = diffuseFresh h HEAT_CELLS k := by
  unfold diffusePass diffuseFresh
  rw [diffuseDown_eq]
  by_cases hk : 2 ≤ k ∧ k ≤ HEAT_CELLS - 1
  · rw [if_pos hk, if_pos hk]
    congr 1
    omega
  · rw [if_neg hk, if_neg hk]

/-- The FireSim class state: the heat cell array and the fire_on flag. -/
structure FireSim where
  heat : Nat → Nat
  fire_on : Bool

/-- The FireSim constructor: all cells zeroed, fire_on = true. -/
def FireSim.mkInit : FireSim := ⟨fun _ => 0, true⟩

def FireSim.isOn (s : FireSim) : Bool := s.fire_on

def FireSim.off (s : FireSim) : FireSim := { s with fire_on := false }

def FireSim.on (s : FireSim) : FireSim := { s with fire_on := true }

/-- FireSim::update, with the random draws of one tick as parameters:
c i is the random8(0, (COOLING*10)/HEAT_CELLS + 2) value drawn for cell i,
r is the random8() spark-probability draw, y the random8(3) spark index draw,
amt the random8(160, 255) spark amount draw.  Mirrors the source: cool, then
diffuse in place top-down, then return early when fire_on != true, else
possibly spark. -/
def FireSim.update (s : FireSim) (c : Nat → Nat) (r y amt : Nat) : FireSim :=
  let h1 := coolPass s.heat c
  let h2 := diffusePass h1
  if s.fire_on ≠ true then ⟨h2, s.fire_on⟩
  else if r < SPARKING then ⟨setCell h2 y (qadd8 (h2 y) amt), s.fire_on⟩
  else ⟨h2, s.fire_on⟩

/-- t successive calls of FireSim::update, with per-tick draw streams. -/
def FireSim.updateIter (cs : Nat → Nat → Nat) (rs ys amts : Nat → Nat)
    (s : FireSim) : Nat → FireSim
  | 0 => s
  | t + 1 => (FireSim.updateIter cs rs ys amts s t).update (cs t) (rs t) (ys t) (amts t)

theorem coolPass_le (h c : Nat → Nat) (M : Nat) (hh : ∀ i, h i ≤ M) :
    ∀ i, coolPass h c i ≤ M := by
  intro i
  unfold coolPass qsub8
  have := hh i
  split <;> omega

theorem diffusePass_le (h : Nat → Nat) (M : Nat) (hh : ∀ i, h i ≤ M) :
    ∀ i, diffusePass h i ≤ M := by
  intro i
  unfold diffusePass
  rw [diffuseDown_eq]
  have h1 := hh (i - 1)
  have h2 := hh (i - 2)
  have h3 := hh i
  split <;> omega

/-- C3: all heat cells stay in [0, 255] across FireSim::update, for all random
draws in the ranges the sketch requests: cooling draws below
(COOLING*10)/HEAT_CELLS + 2 under saturating subtraction, spark index in
[0, 3), spark amount in [160, 255) under saturating addition.  The lower
bound 0 is inherent in the Nat embedding of the saturating byte operations. -/
theorem c3_heat_in_bounds (s : FireSim) (c : Nat → Nat) (r y amt : Nat)
    (hh : ∀ i, s.heat i ≤ 255)
    (hc : ∀ i, c i < COOLING * 10 / HEAT_CELLS + 2)
    (hy : y < 3) (hamt : 160 ≤ amt ∧ amt < 255) :
    ∀ i, (s.update c r y amt).heat i ≤ 255 := by
  intro i
  have h1 : ∀ j, coolPass s.heat c j ≤ 255 := coolPass_le _ _ _ hh
  have h2 : ∀ j, diffusePass (coolPass s.heat c) j ≤ 255 := diffusePass_le _ _ h1
  unfold FireSim.update
  split
  · exact h2 i
  · split
    · dsimp only [setCell, qadd8]
      have := h2 i
      split <;> omega
    · exact h2 i

/-- Witness for C3 at a concrete input: the freshly constructed simulation,
zero cooling draws, spark draws r = 0, y = 0, amt = 160. -/
theorem c3_heat_in_bounds_witness :
    ((∀ i, FireSim.mkInit.heat i ≤ 255) ∧
      (∀ i : Nat, (fun _ : Nat => 0) i < COOLING * 10 / HEAT_CELLS + 2) ∧
      (0 : Nat) < 3 ∧ ((160 : Nat) ≤ 160 ∧ (160 : Nat) < 255)) ∧
    ∀ i, (FireSim.mkInit.update (fun _ => 0) 0 0 160).heat i ≤ 255 := by
  refine ⟨⟨fun i => by norm_num [FireSim.mkInit], fun i => by norm_num [COOLING, HEAT_CELLS, NUM_LEDS, HEAT_CELL_MULTIPLIER], by norm_num, by norm_num⟩, ?_⟩
  exact c3_heat_in_bounds FireSim.mkInit (fun _ => 0) 0 0 160
    (fun i => by norm_num [FireSim.mkInit])
    (fun i => by norm_num [COOLING, HEAT_CELLS, NUM_LEDS, HEAT_CELL_MULTIPLIER])
    (by norm_num) (by norm_num)

/-- FireSim::update never changes the fire_on flag. -/
theorem update_fire_on (s : FireSim) (c : Nat → Nat) (r y amt : Nat) :
    (s.update c r y amt).fire_on = s.fire_on := by
  unfold FireSim.update
  split
  · rfl
  · split <;> rfl

/-- When fire_on is false, FireSim::update returns right after cooling and
diffusion: no spark is ever applied. -/
theorem update_disabled (s : FireSim) (c : Nat → Nat) (r y amt : Nat)
    (hs : s.fire_on = false) :
    s.update c r y amt = ⟨diffusePass (coolPass s.heat c), false⟩ := by
  unfold FireSim.update
  rw [hs]
  rfl

theorem updateIter_succ (cs : Nat → Nat → Nat) (rs ys amts : Nat → Nat)
    (s : FireSim) (t : Nat) :
    FireSim.updateIter cs rs ys amts s (t + 1)
      = (FireSim.updateIter cs rs ys amts s t).update (cs t) (rs t) (ys t) (amts t) := rfl

theorem coolPass_le_range (h c : Nat → Nat) (M : Nat)
    (hh : ∀ i, i < HEAT_CELLS → h i ≤ M) :
    ∀ i, i < HEAT_CELLS → coolPass h c i ≤ M := by
  intro i hi
  unfold coolPass qsub8
  have := hh i hi
  rw [if_pos hi]
  omega

theorem coolPass_decr (h c : Nat → Nat) (M : Nat)
    (hh : ∀ i, i < HEAT_CELLS → h i ≤ M) (hc : ∀ i, 1 ≤ c i) :
    ∀ i, i < HEAT_CELLS → coolPass h c i ≤ M - 1 := by
  intro i hi
  unfold coolPass qsub8
  have := hh i hi
  have := hc i
  rw [if_pos hi]
  omega

theorem diffusePass_le_range (h : Nat → Nat) (M : Nat)
    (hh : ∀ i, i < HEAT_CELLS → h i ≤ M) :
    ∀ i, i < HEAT_CELLS → diffusePass h i ≤ M := by
  intro i hi
  unfold diffusePass
  rw [diffuseDown_eq]
  split
  · rename_i hcond
    have h1 := hh (i - 1) (by omega)
    have h2 := hh (i - 2) (by omega)
    omega
  · exact hh i hi

/-- With the fire disabled and every cooling draw at least 1, every tick
strictly shrinks an upper bound on all cells. -/
theorem disabled_iter_decay (h : Nat → Nat) (cs : Nat → Nat → Nat)
    (rs ys amts : Nat → Nat)
    (hh : ∀ i, i < HEAT_CELLS → h i ≤ 255) (hcs : ∀ t i, 1 ≤ cs t i) :
    ∀ t, (FireSim.updateIter cs rs ys amts ⟨h, false⟩ t).fire_on = false ∧
      ∀ i, i < HEAT_CELLS →
        (FireSim.updateIter cs rs ys amts ⟨h, false⟩ t).heat i ≤ 255 - t := by
  intro t
  induction t with
  | zero => exact ⟨rfl, by simpa using hh⟩
  | succ n ih =>
    obtain ⟨hon, hb⟩ := ih
    have hu := update_disabled (FireSim.updateIter cs rs ys amts ⟨h, false⟩ n)
      (cs n) (rs n) (ys n) (amts n) hon
    constructor
    · rw [updateIter_succ, hu]
    · intro i hi
      rw [updateIter_succ, hu]
      have hres := diffusePass_le_range _ (255 - n - 1)
        (coolPass_decr _ _ (255 - n) hb (hcs n)) i hi
      dsimp only at hres ⊢
      omega

/-- C4 (amended): when the simulation is disabled, update still performs the
cooling and diffusion passes and never injects a spark; any pointwise upper
bound on the cells (in particular the maximum) never increases; and provided
every cooling draw is at least 1, all cells are 0 after 255 ticks and stay 0.
The unconditional bounded-convergence part of the original claim is refuted by
the counterexample with all-zero cooling draws. -/
theorem c4_disabled_decay_amended (h : Nat → Nat) (cs : Nat → Nat → Nat)
    (rs ys amts : Nat → Nat)
    (hh : ∀ i, i < HEAT_CELLS → h i ≤ 255) (hcs : ∀ t i, 1 ≤ cs t i) :
    (∀ (c : Nat → Nat) (r y amt : Nat),
        (FireSim.mk h false).update c r y amt = ⟨diffusePass (coolPass h c), false⟩)
    ∧ (∀ (M : Nat) (c : Nat → Nat) (r y amt : Nat), (∀ i, i < HEAT_CELLS → h i ≤ M) →
        ∀ i, i < HEAT_CELLS → ((FireSim.mk h false).update c r y amt).heat i ≤ M)
    ∧ (∀ t, 255 ≤ t → ∀ i, i < HEAT_CELLS →
        (FireSim.updateIter cs rs ys amts ⟨h, false⟩ t).heat i = 0) := by
  refine ⟨fun c r y amt => update_disabled _ _ _ _ _ rfl, ?_, ?_⟩
  · intro M c r y amt hM i hi
    rw [update_disabled _ _ _ _ _ rfl]
    exact diffusePass_le_range _ _ (coolPass_le_range _ _ _ hM) i hi
  · intro t ht i hi
    have := (disabled_iter_decay h cs rs ys amts hh hcs t).2 i hi
    omega

/-- C4 counterexample: the cooling draw 0 is inside the allowed range
[0, (COOLING*10)/HEAT_CELLS + 2).  With the simulation disabled, the fully
hot array is then a fixed point of update, and cell 0 is still at 255 after
300 ticks: repeated updates do not drive the cells to 0 within any bounded
number of ticks, and no cell ever decreases on this run. -/
theorem hot_fixed :
    (FireSim.mk (fun _ => 255) false).update (fun _ => 0) 0 0 0
      = FireSim.mk (fun _ => 255) false := by
  rw [update_disabled _ _ _ _ _ rfl]
  have hcool : coolPass (fun _ => 255) (fun _ => 0) = fun _ => 255 := by
    funext i
    unfold coolPass qsub8
    split <;> rfl
  rw [hcool]
  have hdiff : diffusePass (fun _ : Nat => 255) = fun _ => 255 := by
    funext i
    unfold diffusePass
    rw [diffuseDown_eq]
    split <;> norm_num
  rw [hdiff]

theorem hot_iter (t : Nat) :
    FireSim.updateIter (fun _ _ => 0) (fun _ => 0) (fun _ => 0) (fun _ => 0)
      (FireSim.mk (fun _ => 255) false) t = FireSim.mk (fun _ => 255) false := by
  induction t with
  | zero => rfl
  | succ n ih => rw [updateIter_succ, ih, hot_fixed]

theorem c4_counterexample :
    (0 < COOLING * 10 / HEAT_CELLS + 2)
    ∧ (∀ i, i < HEAT_CELLS →
        ((FireSim.mk (fun _ => 255) false).update (fun _ => 0) 0 0 0).heat i = 255)
    ∧ (FireSim.updateIter (fun _ _ => 0) (fun _ => 0) (fun _ => 0) (fun _ => 0)
        (FireSim.mk (fun _ => 255) false) 300).heat 0 = 255 := by
  refine ⟨by decide, ?_, ?_⟩
  · intro i _
    rw [hot_fixed]
  · rw [hot_iter 300]

/-- Witness for C4 (amended) at a concrete input: fully hot start, all cooling
draws equal to 1. -/
theorem c4_disabled_decay_amended_witness :
    ((∀ i, i < HEAT_CELLS → (fun _ : Nat => 255) i ≤ 255)
      ∧ (∀ t i : Nat, 1 ≤ (fun _ _ : Nat => 1) t i)) ∧
    ∀ t, 255 ≤ t → ∀ i, i < HEAT_CELLS →
      (FireSim.updateIter (fun _ _ => 1) (fun _ => 0) (fun _ => 0) (fun _ => 0)
        ⟨fun _ => 255, false⟩ t).heat i = 0 :=
  ⟨⟨fun _ _ => le_refl 255, fun _ _ => le_refl 1⟩,
   (c4_disabled_decay_amended (fun _ => 255) (fun _ _ => 1) (fun _ => 0) (fun _ => 0)
      (fun _ => 0) (fun _ _ => le_refl 255) (fun _ _ => le_refl 1)).2.2⟩

/-- The Button class state.  The physical pin id is irrelevant to the state
machine and is omitted; the pin level read on a tick is passed in instead. -/
structure Button where
  m_down : Bool
  m_frames : Int
  m_frames_on : Int
  m_frames_off : Int
deriving DecidableEq

/-- The Button constructor: m_frames = -1, m_down = false. -/
def Button.make (frames_on frames_off : Int) : Button :=
  ⟨false, -1, frames_on, frames_off⟩

/-- Button::clicked: true when not down and m_frames == m_frames_on. -/
def Button.clicked (b : Button) : Bool :=
  !b.m_down && (b.m_frames == b.m_frames_on)

/-- Button::isPressed: the debounced level m_down. -/
def Button.isPressed (b : Button) : Bool := b.m_down

/-- Button::tick; pinDown is true when digitalRead(m_pin) == 0. -/
def Button.tick (b : Button) (pinDown : Bool) : Button :=
  if pinDown then
    if b.m_down then { b with m_frames := -1 }
    else if b.m_frames < 0 then { b with m_frames := b.m_frames_on }
    else if b.m_frames > 0 then { b with m_frames := b.m_frames - 1 }
    else { b with m_down := true, m_frames := -1 }
  else
    if b.m_down = false then { b with m_frames := -1 }
    else if b.m_frames < 0 then { b with m_frames := b.m_frames_off }
    else if b.m_frames > 0 then { b with m_frames := b.m_frames - 1 }
    else { b with m_down := false, m_frames := -1 }

def Button.tickDown (b : Button) : Button := b.tick true

def Button.tickUp (b : Button) : Button := b.tick false

/-- The full trajectory of the button under consecutive pin-down ticks from
the constructed idle state: the countdown is loaded on tick 1, counts down on
ticks 2 .. frames_on + 1, and the press is confirmed on tick frames_on + 2. -/
theorem downIter_from_make (F off : Int) (hF : 0 ≤ F) : ∀ k : Nat,
    Button.tickDown^[k] (Button.make F off)
      = if k = 0 then Button.make F off
        else if (k : Int) ≤ F + 1 then ⟨false, F - ((k : Int) - 1), F, off⟩
        else ⟨true, -1, F, off⟩ := by
  intro k
  induction k with
  | zero => simp
  | succ n ih =>
    rw [Function.iterate_succ_apply', ih]
    by_cases h0 : n = 0
    · subst h0
      simp only [if_pos rfl]
      unfold Button.tickDown Button.tick Button.make
      simp only [if_true]
      norm_num
      split_ifs <;> simp_all [Button.mk.injEq] <;> omega
    · rw [if_neg h0]
      by_cases h1 : (n : Int) ≤ F + 1
      · rw [if_pos h1]
        unfold Button.tickDown Button.tick
        simp only [if_true]
        split_ifs <;> simp_all [Button.mk.injEq] <;> omega
      · rw [if_neg h1]
        unfold Button.tickDown Button.tick
        simp only [if_true]
        split_ifs <;> simp_all [Button.mk.injEq] <;> omega

/-- C2 counterexample: with framesToConfirmPress = 2 (the palette button of
the sketch), after exactly 2 consecutive pin-down ticks from the idle state
the button is still not pressed, and clicked() already returned true on the
very first down tick, when the countdown starts, not on the tick where the
countdown reaches 0. -/
theorem c2_counterexample :
    (Button.tickDown^[2] (Button.make 2 2)).isPressed = false
    ∧ (Button.tickDown^[1] (Button.make 2 2)).clicked = true
    ∧ (Button.tickDown^[2] (Button.make 2 2)).clicked = false := by
  decide

/-- C2 (amended): from the released idle state with framesToConfirmPress =
F >= 0, under consecutive pin-down ticks the button becomes pressed exactly
from tick F + 2 on, not from tick F; clicked() returns true on exactly one
tick, namely tick 1, the tick on which the countdown starts, not the tick on
which it reaches 0; and if the pin reads up on any tick before the press is
confirmed, the button returns exactly to the idle state and is never pressed,
although clicked() did pulse on the first down tick of the aborted attempt. -/
theorem c2_press_amended (F off : Int) (hF : 0 ≤ F) :
    (∀ k : Nat, (Button.tickDown^[k] (Button.make F off)).isPressed = true
        ↔ F + 2 ≤ (k : Int))
    ∧ (∀ k : Nat, (Button.tickDown^[k] (Button.make F off)).clicked = true ↔ k = 1)
    ∧ (∀ j : Nat, (j : Int) ≤ F + 1 →
        Button.tickUp (Button.tickDown^[j] (Button.make F off)) = Button.make F off) := by
  refine ⟨?_, ?_, ?_⟩
  · intro k
    rw [downIter_from_make F off hF k]
    split_ifs with h1 h2
    · subst h1
      simp [Button.make, Button.isPressed]
      all_goals omega
    · simp only [Button.isPressed]
      simp
      all_goals omega
    · simp only [Button.isPressed]
      simp
      all_goals omega
  · intro k
    rw [downIter_from_make F off hF k]
    split_ifs with h1 h2
    · subst h1
      simp [Button.make, Button.clicked]
      all_goals omega
    · simp only [Button.clicked]
      simp
      all_goals omega
    · simp only [Button.clicked]
      simp
      all_goals omega
  · intro j hj
    rw [downIter_from_make F off hF j]
    split_ifs with h1 h2
    · subst h1
      unfold Button.tickUp Button.tick Button.make
      simp
    · unfold Button.tickUp Button.tick Button.make
      simp

/-- Witness for C2 (amended) at F = 2: after 4 consecutive down ticks the
button is pressed. -/
theorem c2_press_amended_witness :
    (0 : Int) ≤ 2 ∧ (Button.tickDown^[4] (Button.make 2 2)).isPressed = true :=
  ⟨by decide, ((c2_press_amended 2 2 (by decide)).1 4).mpr (by decide)⟩

/-- Invariant after a click under continued pin-down input: either the press
is already confirmed, or the countdown is strictly below its reload value
m_frames_on = F, so clicked() cannot fire again. -/
def pressInv (F : Int) (b : Button) : Prop :=
  b.m_frames_on = F ∧
    (b.m_down = true ∨ (b.m_down = false ∧ 0 ≤ b.m_frames ∧ b.m_frames < F))

theorem pressInv_step (F : Int) (b : Button) (h : pressInv F b) :
    pressInv F b.tickDown := by
  obtain ⟨hon, hcase⟩ := h
  unfold Button.tickDown Button.tick
  simp only [if_true]
  rcases hcase with hd | ⟨hd, h0, hFr⟩
  · rw [if_pos hd]
    exact ⟨hon, Or.inl hd⟩
  · rw [hd, if_neg (by simp)]
    split_ifs with hneg hpos
    · omega
    · exact ⟨hon, Or.inr ⟨rfl, by dsimp only; omega, by dsimp only; omega⟩⟩
    · exact ⟨hon, Or.inl rfl⟩

theorem pressInv_not_clicked (F : Int) (b : Button) (h : pressInv F b) :
    b.clicked = false := by
  obtain ⟨hon, hcase⟩ := h
  unfold Button.clicked
  rcases hcase with hd | ⟨hd, h0, hFr⟩
  · rw [hd]
    rfl
  · rw [hd]
    simp only [Bool.not_false, Bool.true_and, beq_eq_false_iff_ne, ne_eq]
    omega

theorem pressInv_start (b : Button) (hF : 0 ≤ b.m_frames_on)
    (hc : b.clicked = true) : pressInv b.m_frames_on b.tickDown := by
  unfold Button.clicked at hc
  simp only [Bool.and_eq_true, Bool.not_eq_true', beq_iff_eq] at hc
  obtain ⟨hd, hfr⟩ := hc
  unfold Button.tickDown Button.tick
  simp only [if_true]
  rw [hd, if_neg (by simp)]
  split_ifs with hneg hpos
  · omega
  · exact ⟨rfl, Or.inr ⟨rfl, by dsimp only; omega, by dsimp only; omega⟩⟩
  · exact ⟨rfl, Or.inl rfl⟩

/-- C6 counterexample: a bouncing press.  From the idle state of the palette
button (framesToConfirmPress = 2), the pin read sequence down, up, down makes
clicked() return true on tick 1 and again on tick 3, while the debounced
level m_down stays false on every tick of the run: the two clicks belong to
one physical press whose contact bounced up for a single frame, and no
confirmed (debounced) release — a transition of isPressed from true to
false — occurs between them, since isPressed is never even true. -/
theorem c6_counterexample :
    (Button.tickDown (Button.make 2 2)).clicked = true
    ∧ (Button.tickDown (Button.tickUp (Button.tickDown (Button.make 2 2)))).clicked = true
    ∧ (Button.tickDown (Button.make 2 2)).isPressed = false
    ∧ (Button.tickUp (Button.tickDown (Button.make 2 2))).isPressed = false
    ∧ (Button.tickDown (Button.tickUp (Button.tickDown (Button.make 2 2)))).isPressed = false := by
  refine ⟨by decide, by decide, by decide, by decide, by decide⟩

/-- C6 (amended): a second clicked() pulse without an intervening confirmed
release is possible, but only when the pin reading returns to up in between
(a bouncing contact): while the pin reads down on every subsequent tick, a
click is never reported twice.  Formally: once clicked() has returned true,
it returns false on every later tick of an uninterrupted run of pin-down
reads, for any nonnegative framesToConfirmPress. -/
theorem c6_no_double_click (b : Button) (hF : 0 ≤ b.m_frames_on)
    (hc : b.clicked = true) :
    ∀ k : Nat, (Button.tickDown^[k + 1] b).clicked = false := by
  have hinv : ∀ k : Nat, pressInv b.m_frames_on (Button.tickDown^[k + 1] b) := by
    intro k
    induction k with
    | zero => simpa using pressInv_start b hF hc
    | succ n ih =>
      rw [Function.iterate_succ_apply']
      exact pressInv_step _ _ ih
  intro k
  exact pressInv_not_clicked _ _ (hinv k)

/-- Witness for C6 at a concrete clicked state with frames_on = 2. -/
theorem c6_no_double_click_witness :
    ((0 : Int) ≤ (Button.mk false 2 2 2).m_frames_on
      ∧ (Button.mk false 2 2 2).clicked = true)
    ∧ (Button.tickDown^[3] (Button.mk false 2 2 2)).clicked = false :=
  ⟨⟨by decide, by decide⟩,
   c6_no_double_click (Button.mk false 2 2 2) (by decide) (by decide) 2⟩

/-- The loop-level mutable state of the sketch: the two simulation enable
flags (sim1.fire_on, sim2.fire_on), the FastLED global brightness, and the
globals brightness_direction and selected_pallet.  The heat arrays are
carried by FireSim above and are not read by this control flow. -/
structure LoopState where
  sim1on : Bool
  sim2on : Bool
  brightness : Nat
  brightness_direction : Int
  selected_pallet : Nat
deriving DecidableEq

/-- State after setup(): both sims constructed enabled,
FastLED.setBrightness(BRIGHTNESS), brightness_direction = 0,
selected_pallet = false = 0. -/
def initLoopState : LoopState := ⟨true, true, BRIGHTNESS, 0, 0⟩

/-- The value the held-button if-chain of loop() leaves in
brightness_direction: 1 when the side top button is pressed, else, when the
side bottom button is pressed, -1 if brightness is nonzero and the previous
direction unchanged otherwise, else 0. -/
def dirPhase (d : Int) (b : Nat) (sTopP sBotP : Bool) : Int :=
  if sTopP then 1
  else if sBotP then (if b ≠ 0 then -1 else d)
  else 0

/-- The brightness stepping block of loop(): when brightness_direction is
nonzero, step brightness by it in int arithmetic, clamp at MAX_BRIGHTNESS and
at 0, and zero the direction on either clamp. -/
def brightPhase (b : Nat) (d : Int) : Nat × Int :=
  if d ≠ 0 then
    let nb : Int := (b : Int) + d
    if nb ≥ (MAX_BRIGHTNESS : Int) then (MAX_BRIGHTNESS, 0)
    else if nb ≤ 0 then (0, 0)
    else (nb.toNat, d)
  else (b, d)

/-- The held-button if-chain of loop(): pressed side top button forces
direction 1 and both sims on; else a pressed side bottom button, when
brightness is nonzero, forces direction -1 and both sims on; else the
direction is cleared. -/
def heldPhase (s : LoopState) (sTopP sBotP : Bool) : LoopState :=
  if sTopP then { s with brightness_direction := 1, sim1on := true, sim2on := true }
  else if sBotP then
    (if s.brightness ≠ 0 then
      { s with brightness_direction := -1, sim1on := true, sim2on := true }
    else s)
  else { s with brightness_direction := 0 }

/-- The two click-edge blocks at the top of the while loop: a side top click
turns both sims on, then a side bottom click turns both sims off. -/
def clickPhase (s : LoopState) (sTopC sBotC : Bool) : LoopState :=
  let s1 := if sTopC then { s with sim1on := true, sim2on := true } else s
  if sBotC then { s1 with sim1on := false, sim2on := false } else s1

/-- One iteration of the while loop in loop(), with the button query results
of this tick passed in: topC = top_button.clicked(), sTopC =
side_top_button.clicked(), sBotC = side_bottom_button.clicked(), sTopP =
side_top_button.isPressed(), sBotP = side_bottom_button.isPressed().
Statement order mirrors the source. -/
def loopTick (s : LoopState) (topC sTopC sBotC sTopP sBotP : Bool) : LoopState :=
  let s3 := heldPhase (clickPhase s sTopC sBotC) sTopP sBotP
  let bd := brightPhase s3.brightness s3.brightness_direction
  let s4 := { s3 with brightness := bd.1, brightness_direction := bd.2 }
  if topC then { s4 with selected_pallet := (s4.selected_pallet + 1) % NUM_PALLETS }
  else s4

def holdIncTick (s : LoopState) : LoopState := loopTick s false false false true false

def holdDecTick (s : LoopState) : LoopState := loopTick s false false false false true

theorem clickPhase_brightness (s : LoopState) (a b : Bool) :
    (clickPhase s a b).brightness = s.brightness := by
  unfold clickPhase
  split_ifs <;> rfl

theorem clickPhase_dir (s : LoopState) (a b : Bool) :
    (clickPhase s a b).brightness_direction = s.brightness_direction := by
  unfold clickPhase
  split_ifs <;> rfl

theorem clickPhase_pallet (s : LoopState) (a b : Bool) :
    (clickPhase s a b).selected_pallet = s.selected_pallet := by
  unfold clickPhase
  split_ifs <;> rfl

theorem heldPhase_dir (s : LoopState) (p q : Bool) :
    (heldPhase s p q).brightness_direction
      = dirPhase s.brightness_direction s.brightness p q := by
  unfold heldPhase dirPhase
  split_ifs <;> rfl

theorem heldPhase_brightness (s : LoopState) (p q : Bool) :
    (heldPhase s p q).brightness = s.brightness := by
  unfold heldPhase
  split_ifs <;> rfl

theorem heldPhase_pallet (s : LoopState) (p q : Bool) :
    (heldPhase s p q).selected_pallet = s.selected_pallet := by
  unfold heldPhase
  split_ifs <;> rfl

theorem loopTick_brightness (s : LoopState) (topC sTopC sBotC sTopP sBotP : Bool) :
    (loopTick s topC sTopC sBotC sTopP sBotP).brightness
        = (brightPhase s.brightness
            (dirPhase s.brightness_direction s.brightness sTopP sBotP)).1
    ∧ (loopTick s topC sTopC sBotC sTopP sBotP).brightness_direction
        = (brightPhase s.brightness
            (dirPhase s.brightness_direction s.brightness sTopP sBotP)).2 := by
  unfold loopTick
  dsimp only
  rw [heldPhase_brightness, heldPhase_dir, clickPhase_brightness, clickPhase_dir]
  split_ifs <;> exact ⟨rfl, rfl⟩

theorem brightPhase_le (b : Nat) (d : Int) (hb : b ≤ 255) :
    (brightPhase b d).1 ≤ 255 := by
  unfold brightPhase MAX_BRIGHTNESS
  dsimp only
  split_ifs <;> first | omega | (dsimp only; omega)

theorem brightPhase_zero_dir (b : Nat) (d : Int) :
    (brightPhase b d).1 = 0 → (brightPhase b d).2 = 0 := by
  unfold brightPhase MAX_BRIGHTNESS
  dsimp only
  split_ifs <;> first | omega | (dsimp only; omega)

/-- Holding the side top button on a tick keeps a saturated brightness at 255:
the direction is forced to 1 and the step clamps at MAX_BRIGHTNESS. -/
theorem holdInc_keeps_255 (st : LoopState) (hst : st.brightness = 255) :
    (holdIncTick st).brightness = 255 := by
  unfold holdIncTick
  rw [(loopTick_brightness st false false false true false).1, hst]
  rfl

/-- One increase-held tick steps brightness to min (b + 1) 255. -/
theorem holdInc_bright (st : LoopState) (hb : st.brightness ≤ 255) :
    (holdIncTick st).brightness = min (st.brightness + 1) 255 := by
  unfold holdIncTick
  rw [(loopTick_brightness st false false false true false).1]
  have hd : dirPhase st.brightness_direction st.brightness true false = 1 := rfl
  rw [hd]
  unfold brightPhase MAX_BRIGHTNESS
  dsimp only
  split_ifs <;> first | omega | (dsimp only; omega)

/-- m increase-held ticks step brightness to min (b + m) 255. -/
theorem holdInc_iter_bright (m : Nat) : ∀ st : LoopState, st.brightness ≤ 255 →
    (holdIncTick^[m] st).brightness = min (st.brightness + m) 255 := by
  induction m with
  | zero =>
    intro st hb
    simp only [Function.iterate_zero_apply]
    omega
  | succ n ih =>
    intro st hb
    rw [Function.iterate_succ_apply',
      holdInc_bright _ (by rw [ih st hb]; omega), ih st hb]
    omega

/-- C5: on every tick, the held-button chain leaves direction 1 while the
increase button is held, -1 while the decrease button is held and brightness
is nonzero, and 0 otherwise (on the reachable states, which satisfy the
invariant that a zero brightness comes with a zero direction); a nonzero
direction steps brightness by one with clamping to [0, 255] and either clamp
zeroes the direction; the bound and the invariant are preserved by every
tick; holding increase for 200 ticks from brightness 128 saturates at 255 and
stays there; holding decrease at brightness 0 leaves brightness at 0
forever. -/
theorem c5_brightness_control (s : LoopState) (sTopP sBotP : Bool)
    (hb : s.brightness ≤ 255)
    (hinv : s.brightness = 0 → s.brightness_direction = 0) :
    ((heldPhase s sTopP sBotP).brightness_direction
        = if sTopP then 1 else if sBotP ∧ s.brightness ≠ 0 then -1 else 0)
    ∧ (∀ b : Nat, b ≤ 255 →
        brightPhase b 1 = (if 254 ≤ b then (255, 0) else (b + 1, 1))
        ∧ brightPhase b (-1) = (if b ≤ 1 then (0, 0) else (b - 1, -1))
        ∧ brightPhase b 0 = (b, 0))
    ∧ (∀ topC sTopC sBotC pT pB : Bool,
        (loopTick s topC sTopC sBotC pT pB).brightness ≤ 255
        ∧ ((loopTick s topC sTopC sBotC pT pB).brightness = 0 →
            (loopTick s topC sTopC sBotC pT pB).brightness_direction = 0))
    ∧ (holdIncTick^[200] ⟨true, true, 128, 0, 0⟩).brightness = 255
    ∧ (∀ m, (holdIncTick^[m] (holdIncTick^[200] ⟨true, true, 128, 0, 0⟩)).brightness = 255)
    ∧ (∀ m, (holdDecTick^[m] ⟨true, true, 0, 0, 0⟩).brightness = 0) := by
  refine ⟨?_, ?_, ?_, ?_, ?_, ?_⟩
  · rw [heldPhase_dir]
    unfold dirPhase
    by_cases h0 : s.brightness = 0
    · have hd := hinv h0
      split_ifs <;> simp_all
    · split_ifs <;> simp_all
  · intro b hble
    refine ⟨?_, ?_, ?_⟩ <;>
      · unfold brightPhase MAX_BRIGHTNESS
        dsimp only
        split_ifs <;> simp [Prod.mk.injEq] <;> omega
  · intro topC sTopC sBotC pT pB
    have hbd := loopTick_brightness s topC sTopC sBotC pT pB
    rw [hbd.1, hbd.2]
    exact ⟨brightPhase_le _ _ hb, brightPhase_zero_dir _ _⟩
  · rw [holdInc_iter_bright 200 ⟨true, true, 128, 0, 0⟩ (by norm_num)]
    decide
  · intro m
    induction m with
    | zero =>
      rw [Function.iterate_zero_apply,
        holdInc_iter_bright 200 ⟨true, true, 128, 0, 0⟩ (by norm_num)]
      decide
    | succ n ih =>
      rw [Function.iterate_succ_apply']
      exact holdInc_keeps_255 _ ih
  · have hfix : holdDecTick ⟨true, true, 0, 0, 0⟩ = ⟨true, true, 0, 0, 0⟩ := by decide
    intro m
    rw [Function.iterate_fixed hfix]

/-- Witness for C5 at the setup state (brightness 200, direction 0). -/
theorem c5_brightness_control_witness :
    (initLoopState.brightness ≤ 255
      ∧ (initLoopState.brightness = 0 → initLoopState.brightness_direction = 0))
    ∧ (holdIncTick^[200] ⟨true, true, 128, 0, 0⟩).brightness = 255 :=
  ⟨⟨by decide, by decide⟩,
   (c5_brightness_control initLoopState false false (by decide) (by decide)).2.2.2.1⟩

/-- C10: the two simulations are constructed enabled, and every loop tick
preserves equality of their enable flags: each on/off action of the loop is
applied to both sims in the same tick, so one fire is never enabled while the
other is disabled. -/
theorem c10_sims_toggle_together (s : LoopState) (topC sTopC sBotC sTopP sBotP : Bool)
    (h : s.sim1on = s.sim2on) :
    ((loopTick s topC sTopC sBotC sTopP sBotP).sim1on
        = (loopTick s topC sTopC sBotC sTopP sBotP).sim2on)
    ∧ initLoopState.sim1on = true ∧ initLoopState.sim2on = true := by
  refine ⟨?_, rfl, rfl⟩
  unfold loopTick clickPhase heldPhase
  dsimp only
  split_ifs <;> simp_all

/-- Witness for C10 at the setup state with no button activity. -/
theorem c10_sims_toggle_together_witness :
    initLoopState.sim1on = initLoopState.sim2on
    ∧ (loopTick initLoopState false false false false false).sim1on
        = (loopTick initLoopState false false false false false).sim2on :=
  ⟨by decide,
   (c10_sims_toggle_together initLoopState false false false false false (by decide)).1⟩

/-- An RGB triple, one byte per channel, as produced by the palette lookup
and stored into the LED buffer. -/
structure CRGB where
  r : Nat
  g : Nat
  b : Nat
deriving DecidableEq

/-- Modelled from the spec / FastLED: CRGB operator += adds channelwise with
saturation at 255 (qadd8 per channel).  FastLED is an external library. -/
def CRGB.addSat (x y : CRGB) : CRGB :=
  ⟨qadd8 x.r y.r, qadd8 x.g y.g, qadd8 x.b y.b⟩

/-- colorindex = scale8(heat[j * HEAT_CELL_MULTIPLIER + m], 240). -/
def colorIndexAt (h : Nat → Nat) (j m : Nat) : Nat :=
  scale8 (h (j * HEAT_CELL_MULTIPLIER + m)) 240

/-- The palette color accumulated for oversampled cell m of LED j. -/
def palVals (pal : Nat → CRGB) (h : Nat → Nat) (j m : Nat) : CRGB :=
  pal (colorIndexAt h j m)

/-- The inner loop of copyToLEDs: sum += ColorFromPalette(gPal, colorindex)
over m in [0, HEAT_CELL_MULTIPLIER), from CRGB(0,0,0).  The palette lookup
ColorFromPalette(gPal, .) is passed in abstractly as pal. -/
def ledSum (pal : Nat → CRGB) (h : Nat → Nat) (j : Nat) : CRGB :=
  (List.range HEAT_CELL_MULTIPLIER).foldl
    (fun s m => s.addSat (palVals pal h j m)) ⟨0, 0, 0⟩

/-- The color stored for LED j.  The source divides each channel of the sum
by (float)HEAT_CELL_MULTIPLIER and stores it into a byte; every channel of
the saturating sum is at most 255, so the float division by 2 is exact in
halves and the byte store truncates: this is Nat division by 2. -/
def ledColor (pal : Nat → CRGB) (h : Nat → Nat) (j : Nat) : CRGB :=
  ⟨(ledSum pal h j).r / HEAT_CELL_MULTIPLIER,
   (ledSum pal h j).g / HEAT_CELL_MULTIPLIER,
   (ledSum pal h j).b / HEAT_CELL_MULTIPLIER⟩

/-- copyToLEDs as a function from output pixel position to stored color:
pixel p receives the color computed for j = p, or for j = NUM_LEDS - 1 - p
when gReverseDirection is set (the index map is an involution). -/
def copyToLEDs (pal : Nat → CRGB) (h : Nat → Nat) (rev : Bool) (p : Nat) : CRGB :=
  ledColor pal h (if rev then (NUM_LEDS - 1) - p else p)

theorem ledSum_eq (pal : Nat → CRGB) (h : Nat → Nat) (j : Nat) :
    ledSum pal h j
      = (CRGB.addSat ⟨0, 0, 0⟩ (palVals pal h j 0)).addSat (palVals pal h j 1) := rfl

/-- C7 (amended): for a palette whose channels never exceed 255, each output
channel is the channelwise saturating sum min(c0 + c1, 255) of the two
looked-up colors, divided (truncating) by the oversampling multiplier; this
equals the truncated channel average exactly when no channel sum exceeds 255;
in particular, when every heat cell is zero and the channels of the palette
color at index 0 are at most 127 (as for the black index-0 entry of all four
palettes of the sketch), every output pixel equals the palette color at
heat-index 0. -/
theorem c7_render_amended (pal : Nat → CRGB) (h : Nat → Nat)
    (hpal : ∀ x, (pal x).r ≤ 255 ∧ (pal x).g ≤ 255 ∧ (pal x).b ≤ 255) :
    (((pal 0).r ≤ 127 ∧ (pal 0).g ≤ 127 ∧ (pal 0).b ≤ 127) → (∀ i, h i = 0) →
        ∀ p, p < NUM_LEDS → copyToLEDs pal h false p = pal 0)
    ∧ (∀ j, ledColor pal h j =
        ⟨min ((palVals pal h j 0).r + (palVals pal h j 1).r) 255 / HEAT_CELL_MULTIPLIER,
         min ((palVals pal h j 0).g + (palVals pal h j 1).g) 255 / HEAT_CELL_MULTIPLIER,
         min ((palVals pal h j 0).b + (palVals pal h j 1).b) 255 / HEAT_CELL_MULTIPLIER⟩)
    ∧ (∀ j, (palVals pal h j 0).r + (palVals pal h j 1).r ≤ 255 →
            (palVals pal h j 0).g + (palVals pal h j 1).g ≤ 255 →
            (palVals pal h j 0).b + (palVals pal h j 1).b ≤ 255 →
        ledColor pal h j =
          ⟨((palVals pal h j 0).r + (palVals pal h j 1).r) / HEAT_CELL_MULTIPLIER,
           ((palVals pal h j 0).g + (palVals pal h j 1).g) / HEAT_CELL_MULTIPLIER,
           ((palVals pal h j 0).b + (palVals pal h j 1).b) / HEAT_CELL_MULTIPLIER⟩) := by
  have hsum : ∀ j, ledColor pal h j =
      ⟨min ((palVals pal h j 0).r + (palVals pal h j 1).r) 255 / HEAT_CELL_MULTIPLIER,
       min ((palVals pal h j 0).g + (palVals pal h j 1).g) 255 / HEAT_CELL_MULTIPLIER,
       min ((palVals pal h j 0).b + (palVals pal h j 1).b) 255 / HEAT_CELL_MULTIPLIER⟩ := by
    intro j
    obtain ⟨hr, hg, hb⟩ := hpal (colorIndexAt h j 0)
    unfold ledColor
    rw [ledSum_eq]
    unfold CRGB.addSat qadd8
    dsimp only
    rw [CRGB.mk.injEq]
    refine ⟨?_, ?_, ?_⟩ <;> (congr 1; unfold palVals at *; omega)
  refine ⟨?_, hsum, ?_⟩
  · intro hsmall hz p hp
    have hidx : ∀ m : Nat, colorIndexAt h p m = 0 := by
      intro m
      unfold colorIndexAt scale8
      rw [hz]
    obtain ⟨h1, h2, h3⟩ := hsmall
    unfold copyToLEDs
    rw [if_neg (by simp), hsum p]
    unfold palVals
    rw [hidx 0, hidx 1]
    have : (⟨(pal 0).r, (pal 0).g, (pal 0).b⟩ : CRGB) = pal 0 := rfl
    rw [CRGB.mk.injEq]
    unfold HEAT_CELL_MULTIPLIER
    refine ⟨?_, ?_, ?_⟩ <;> omega
  · intro j hr hg hb
    rw [hsum j, CRGB.mk.injEq]
    refine ⟨?_, ?_, ?_⟩ <;> (congr 1; omega)

/-- Witness for C7 (amended) with the all-black palette and zero heat. -/
theorem c7_render_amended_witness :
    (((fun _ : Nat => (⟨0, 0, 0⟩ : CRGB)) 0).r ≤ 127 ∧ (0 : Nat) < NUM_LEDS)
    ∧ copyToLEDs (fun _ => ⟨0, 0, 0⟩) (fun _ => 0) false 0
        = (fun _ : Nat => (⟨0, 0, 0⟩ : CRGB)) 0 :=
  ⟨⟨by decide, by decide⟩,
   (c7_render_amended (fun _ => ⟨0, 0, 0⟩) (fun _ => 0)
      (fun _ => ⟨Nat.zero_le 255, Nat.zero_le 255, Nat.zero_le 255⟩)).1
     ⟨by decide, by decide, by decide⟩ (fun _ => rfl) 0 (by decide)⟩

/-- C7 counterexample: take a palette that is black at index 0 and white at
the looked-up index 240 of a fully hot cell, matching the endpoints of all
four palettes of the sketch.  With both heat cells of LED 0 at 255, both
looked-up colors are white (255,255,255) and their channel average is 255,
but the saturating channel sum capped at 255 followed by halving stores
(127,127,127): the output pixel is not the average of the mapped colors. -/
theorem c7_counterexample :
    scale8 255 240 = 240
    ∧ copyToLEDs (fun i => if i = 0 then ⟨0, 0, 0⟩ else ⟨255, 255, 255⟩)
        (fun _ => 255) false 0 = ⟨127, 127, 127⟩
    ∧ ((255 + 255) / 2 : Nat) = 255
    ∧ (⟨127, 127, 127⟩ : CRGB) ≠ ⟨255, 255, 255⟩ := by
  refine ⟨by decide, by decide, by decide, by decide⟩

/-- The palette-select click handler of loop():
selected_pallet = (selected_pallet + 1) % NUM_PALLETS. -/
def palletAdvance (i : Nat) : Nat := (i + 1) % NUM_PALLETS

/-- C8: from any valid palette index, NUM_PALLETS = 4 clicks of the select
button return the selection to its original value; after any click the index
is again in [0, NUM_PALLETS - 1]; and a loop tick on which the top button
clicks performs exactly this advance on selected_pallet. -/
theorem c8_pallet_cycle (i : Nat) (hi : i < NUM_PALLETS) :
    palletAdvance^[NUM_PALLETS] i = i
    ∧ (∀ j : Nat, palletAdvance j < NUM_PALLETS)
    ∧ (∀ s : LoopState, ∀ sTopC sBotC sTopP sBotP : Bool,
        (loopTick s true sTopC sBotC sTopP sBotP).selected_pallet
          = palletAdvance s.selected_pallet) := by
  refine ⟨?_, ?_, ?_⟩
  · unfold NUM_PALLETS at hi ⊢
    interval_cases i <;> decide
  · intro j
    unfold palletAdvance NUM_PALLETS
    omega
  · intro s sTopC sBotC sTopP sBotP
    unfold loopTick palletAdvance
    dsimp only
    rw [if_pos rfl]
    dsimp only
    rw [heldPhase_pallet, clickPhase_pallet]

/-- Witness for C8 at index 2. -/
theorem c8_pallet_cycle_witness :
    2 < NUM_PALLETS ∧ palletAdvance^[NUM_PALLETS] 2 = 2 :=
  ⟨by decide, (c8_pallet_cycle 2 (by decide)).1⟩

/-- The frame period constant: 1000 / FRAMES_PER_SECOND with integer
division, as in setup() and at the bottom of loop(). -/
def framePeriod : Nat := 1000 / FRAMES_PER_SECOND

/-- The modulus of the unsigned long arithmetic on nextwake. -/
def ULONG_MOD : Nat := 2 ^ 32

/-- nextwake = nextwake + 1000 / FRAMES_PER_SECOND, in unsigned long
arithmetic.  The per-tick processing and sleep time dly is not consulted. -/
def nextwakeStep (w _dly : Nat) : Nat := (w + framePeriod) % ULONG_MOD

/-- N loop iterations of the deadline update, with an arbitrary stream ds of
per-tick processing delays (all ignored by the update). -/
def nextwakeIter (ds : Nat → Nat) (w : Nat) : Nat → Nat
  | 0 => w
  | n + 1 => nextwakeStep (nextwakeIter ds w n) (ds n)

/-- C9: for every per-tick processing-delay stream, the deadline after N loop
iterations is the initial deadline plus N times the fixed frame period (in
the unsigned long arithmetic of the source): the deadline advances by exactly
the frame period each iteration, with no cumulative drift. -/
theorem c9_deadline_no_drift (ds : Nat → Nat) (w0 : Nat) (hw : w0 < ULONG_MOD) :
    ∀ N : Nat, nextwakeIter ds w0 N = (w0 + N * framePeriod) % ULONG_MOD := by
  intro N
  induction N with
  | zero =>
    show w0 = (w0 + 0 * framePeriod) % ULONG_MOD
    rw [Nat.zero_mul, Nat.add_zero, Nat.mod_eq_of_lt hw]
  | succ n ih =>
    show nextwakeStep (nextwakeIter ds w0 n) (ds n) = _
    rw [ih]
    unfold nextwakeStep
    rw [Nat.mod_add_mod]
    congr 1
    ring

/-- Witness for C9: initial deadline 33, a variable delay stream, 1000
iterations. -/
theorem c9_deadline_no_drift_witness :
    (33 : Nat) < ULONG_MOD
    ∧ nextwakeIter (fun t => t % 7) 33 1000 = (33 + 1000 * framePeriod) % ULONG_MOD :=
  ⟨by norm_num [ULONG_MOD],
   c9_deadline_no_drift (fun t => t % 7) 33 (by norm_num [ULONG_MOD]) 1000⟩
